import Mathlib

/-!
Shallow embedding of the exercise-name resolution pipeline of the
voice-ingestion service (app/services/exercise_resolver_service.py and
app/routes/exercise.py), together with theorems settling the frozen
claims about it.

Modelling conventions:
* Python dicts are association lists built with an insert-or-update
  operation (`dictInsert`), which preserves the first-insertion position
  of a key and overwrites its value (last write wins), exactly like a
  CPython dict / dict comprehension.  `dictGet` is `dict.get`.
* Python `set` objects have an unspecified iteration order.  `list(s)`
  is therefore modelled by an enumeration parameter
  `enum : List String -> List String` constrained to return a
  permutation of the insertion-ordered member list (`permEnum`).
* The rapidfuzz scorer is an external capability and is passed in as a
  function `scorer : String -> String -> Rat` on the 0..100 scale;
  `process_extract` models `rapidfuzz.process.extract` (filter by
  `score_cutoff`, best matches first, at most `limit` results).
* The OpenAI chat call and any exception raised inside the `try` block
  of `resolve_exercise` are modelled with `Except String`: `Except.error
  msg` is a raised exception carrying message `msg`.
* Scores and confidence values are rationals (`Rat`), avoiding floats.
-/

/-- An entry of `exercises.json` (the fields the resolver reads;
`exercise.get` with a default is modelled by a total field). -/
structure ExerciseRecord where
  exerciseId : String
  name : String
  equipments : List String
  targetMuscles : List String
  bodyParts : List String
  gifUrl : String
deriving DecidableEq

/-- The candidate dictionaries built by `_select_candidates`. -/
structure Candidate where
  exercise_id : String
  name : String
  equipment : String
  target_muscles : String
  body_parts : String
deriving DecidableEq

/-- The `exercise_details` sub-dictionary of a successful resolution. -/
structure ExerciseDetails where
  target_muscles : List String
  body_parts : List String
  equipment : List String
  gif_url : String
deriving DecidableEq

/-- The result dictionary of `resolve_exercise`.  A field whose key is
absent from the Python dict in a given branch is `none` here. -/
structure ResolutionResult where
  success : Bool
  error : Option String
  exercise_id : Option String
  exercise_name : Option String
  exercise_details : Option ExerciseDetails
  resolution_method : String
  confidence_score : Rat
  candidates_count : Option Nat
  llm_response : Option String
  user_input : Option String
deriving DecidableEq

/-- Python `str.strip` / `str.strip(c)` on a character list: drop the
given characters from both ends. -/
def stripCharsList (p : Char → Bool) (l : List Char) : List Char :=
  ((l.dropWhile p).reverse.dropWhile p).reverse

/-- Python `s.strip()` (whitespace from both ends). -/
def pyStrip (s : String) : String :=
  String.mk (stripCharsList (fun c => c.isWhitespace) s.toList)

/-- Python `s.strip(c)` for a single character `c`. -/
def stripChar (s : String) (c : Char) : String :=
  String.mk (stripCharsList (fun d => d = c) s.toList)

/-- Python `s.lower()` (ASCII case fold suffices for this catalog). -/
def pyLower (s : String) : String :=
  String.mk (s.toList.map Char.toLower)

/-- `_normalize_name`: `name.lower().strip()`. -/
def normalize_name (name : String) : String :=
  pyStrip (pyLower name)

/-- CPython dict write `d[k] = v`: overwrite in place if the key is
present (keeping its position), otherwise append the new pair. -/
def dictInsert (d : List (String × α)) (k : String) (v : α) :
    List (String × α) :=
  if d.any (fun p => p.1 = k) then
    d.map (fun p => if p.1 = k then (k, v) else p)
  else
    d ++ [(k, v)]

/-- A dict built from a sequence of key-value pairs (dict comprehension:
first-insertion key order, last value wins). -/
def dictOfList (l : List (String × α)) : List (String × α) :=
  l.foldl (fun d p => dictInsert d p.1 p.2) []

/-- Python `d.get(k)`: value of the unique pair with key `k`. -/
def dictGet (d : List (String × α)) (k : String) : Option α :=
  (d.find? (fun p => p.1 = k)).map (fun p => p.2)

/-- The value of the last pair of `l` carrying key `k` (the value a
dict comprehension over `l` stores at `k`). -/
def lastVal : List (String × α) → String → Option α
  | [], _ => none
  | p :: l, k =>
    match lastVal l k with
    | some v => some v
    | none => if p.1 = k then some p.2 else none

/-- Python `set.add`: the member list of a set, in insertion order. -/
def setAdd (s : List String) (x : String) : List String :=
  if x ∈ s then s else s ++ [x]

/-- Python `set.update` with an iterable. -/
def setUpdate (s : List String) (xs : List String) : List String :=
  xs.foldl setAdd s

/-- An admissible iteration order for a Python set: any permutation of
the member list. -/
def permEnum (enum : List String → List String) : Prop :=
  ∀ s : List String, List.Perm (enum s) s

/-- `self.exercises_by_id`: dict comprehension keyed by `exerciseId`. -/
def exercises_by_id (exercises : List ExerciseRecord) :
    List (String × ExerciseRecord) :=
  dictOfList (exercises.map (fun ex => (ex.exerciseId, ex)))

/-- `_get_candidates_from_aliases`: `alias_index.get(normalized, [])`. -/
def get_candidates_from_aliases (alias_index : List (String × List String))
    (exercise_name : String) : List String :=
  (dictGet alias_index (normalize_name exercise_name)).getD []

/-- Stable descending insertion for `(choice, score)` pairs: a new pair
goes after every pair with a score at least as large. -/
def insertDesc (p : String × Rat) : List (String × Rat) → List (String × Rat)
  | [] => [p]
  | q :: l => if q.2 < p.2 then p :: q :: l else q :: insertDesc p l

/-- Stable sort by descending score (equal scores keep source order). -/
def sortDesc (l : List (String × Rat)) : List (String × Rat) :=
  l.foldl (fun acc x => insertDesc x acc) []

/-- `rapidfuzz.process.extract(query, choices, scorer, limit,
score_cutoff)`: score every choice, keep those with score at least the
cutoff, best first, at most `limit` results. -/
def process_extract (scorer : String → String → Rat) (query : String)
    (choices : List String) (limit : Nat) (cutoff : Rat) :
    List (String × Rat) :=
  (sortDesc ((choices.filter (fun c => cutoff ≤ scorer query c)).map
    (fun c => (c, scorer query c)))).take limit

/-- The fuzzy-search corpus of `_get_candidates_from_fuzzy`: dict
comprehension mapping each lower-cased display name to the exercise id
(later records overwrite earlier ones on equal lower-cased names). -/
def search_corpus (exercises : List ExerciseRecord) :
    List (String × String) :=
  dictOfList (exercises.map (fun ex => (pyLower ex.name, ex.exerciseId)))

/-- `_get_candidates_from_fuzzy`: extract over the corpus keys, then map
matched names back to ids with scores normalized to 0..1. -/
def get_candidates_from_fuzzy (exercises : List ExerciseRecord)
    (scorer : String → String → Rat) (exercise_name : String)
    (limit : Nat) (score_threshold : Rat) : List (String × Rat) :=
  let normalized := normalize_name exercise_name
  let corpus := search_corpus exercises
  let extracted := process_extract scorer normalized (corpus.map (fun p => p.1))
    limit score_threshold
  extracted.filterMap (fun m => (dictGet corpus m.1).map (fun id => (id, m.2 / 100)))

/-- The fuzzy loop of `_select_candidates`: add each id, and break as
soon as the set has reached `target_count` (the size check happens after
the add, exactly as in the source). -/
def addFuzzy (target_count : Nat) : List String → List (String × Rat) → List String
  | s, [] => s
  | s, m :: rest =>
    let s' := setAdd s m.1
    if target_count ≤ s'.length then s' else addFuzzy target_count s' rest

/-- `_select_candidates`: alias ids into a set, fuzzy ids until the set
reaches `target_count`, then `list(candidate_ids)[:target_count]`
projected through the catalog.  `enum` is the set's iteration order. -/
def select_candidates (enum : List String → List String)
    (alias_index : List (String × List String))
    (exercises : List ExerciseRecord)
    (scorer : String → String → Rat)
    (exercise_name : String) (target_count : Nat) : List Candidate :=
  let alias_ids := get_candidates_from_aliases alias_index exercise_name
  let s0 := setUpdate [] alias_ids
  let fuzzy_matches := get_candidates_from_fuzzy exercises scorer exercise_name
    (target_count * 2) 50
  let candidate_ids := addFuzzy target_count s0 fuzzy_matches
  ((enum candidate_ids).take target_count).filterMap (fun ex_id =>
    (dictGet (exercises_by_id exercises) ex_id).map (fun exercise =>
      { exercise_id := exercise.exerciseId
        name := exercise.name
        equipment := String.intercalate ", " exercise.equipments
        target_muscles := String.intercalate ", " exercise.targetMuscles
        body_parts := String.intercalate ", " exercise.bodyParts }))

/-- The response-cleaning step of `resolve_exercise`:
`llm_response.strip('"').strip("'").strip()`. -/
def clean_llm_id (llm_response : String) : String :=
  pyStrip (stripChar (stripChar llm_response '"') '\'')

/-- `resolve_exercise`.  `selection` is the outcome of the
`_select_candidates` call and `oracle` the outcome of the chat
completion, both inside the `try` block: `Except.error msg` is an
exception with message `msg`, caught by the `except` clause. -/
def resolve_exercise (exercises : List ExerciseRecord)
    (selection : Except String (List Candidate))
    (oracle : List Candidate → Except String String)
    (exercise_name : String) : ResolutionResult :=
  match selection with
  | Except.error e =>
    { success := false
      error := some ("Error resolving exercise: " ++ e)
      exercise_id := none
      exercise_name := none
      exercise_details := none
      resolution_method := "error"
      confidence_score := 0
      candidates_count := none
      llm_response := none
      user_input := some exercise_name }
  | Except.ok candidates =>
    if candidates.isEmpty then
      { success := false
        error := some "No matching exercises found in database"
        exercise_id := none
        exercise_name := none
        exercise_details := none
        resolution_method := "none"
        confidence_score := 0
        candidates_count := some 0
        llm_response := none
        user_input := none }
    else
      match oracle candidates with
      | Except.error e =>
        { success := false
          error := some ("Error resolving exercise: " ++ e)
          exercise_id := none
          exercise_name := none
          exercise_details := none
          resolution_method := "error"
          confidence_score := 0
          candidates_count := none
          llm_response := none
          user_input := some exercise_name }
      | Except.ok content =>
        let llm_response := pyStrip content
        if pyLower llm_response ∈ (["null", "none", ""] : List String) then
          { success := false
            error := some "LLM could not find a suitable match"
            exercise_id := none
            exercise_name := none
            exercise_details := none
            resolution_method := "llm_no_match"
            confidence_score := 0
            candidates_count := some candidates.length
            llm_response := some llm_response
            user_input := none }
        else
          let exercise_id := clean_llm_id llm_response
          match dictGet (exercises_by_id exercises) exercise_id with
          | none =>
            { success := false
              error := some ("LLM returned invalid exercise_id: " ++ exercise_id)
              exercise_id := none
              exercise_name := none
              exercise_details := none
              resolution_method := "llm_invalid"
              confidence_score := 0
              candidates_count := some candidates.length
              llm_response := some llm_response
              user_input := none }
          | some exercise =>
            { success := true
              error := none
              exercise_id := some exercise_id
              exercise_name := some exercise.name
              exercise_details := some
                { target_muscles := exercise.targetMuscles
                  body_parts := exercise.bodyParts
                  equipment := exercise.equipments
                  gif_url := exercise.gifUrl }
              resolution_method := "llm_match"
              confidence_score := 0.85
              candidates_count := some candidates.length
              llm_response := none
              user_input := some exercise_name }

/-- The `/resolve-exercise` route: the request model validates
`candidate_count` with `ge=3, le=15` (rejected before the handler runs,
so before candidate selection); `exercise_name` is an unconstrained
string.  On a valid request the handler calls the resolver. -/
def resolve_exercise_route (enum : List String → List String)
    (alias_index : List (String × List String))
    (exercises : List ExerciseRecord)
    (scorer : String → String → Rat)
    (oracle : List Candidate → Except String String)
    (exercise_name : String) (candidate_count : Nat) :
    Except String ResolutionResult :=
  if 3 ≤ candidate_count ∧ candidate_count ≤ 15 then
    Except.ok (resolve_exercise exercises
      (Except.ok (select_candidates enum alias_index exercises scorer
        exercise_name candidate_count))
      oracle exercise_name)
  else
    Except.error "validation error: candidate_count outside [3,15]"

/-- The `/exercises/search/` route: extract over a corpus mapping each
lower-cased name to the whole record, cutoff 50, scores normalized. -/
def search_exercises (exercises : List ExerciseRecord)
    (scorer : String → String → Rat) (query : String) (limit : Nat) :
    List (ExerciseRecord × Rat) :=
  let corpus := dictOfList (exercises.map (fun ex => (pyLower ex.name, ex)))
  let extracted := process_extract scorer (pyLower query)
    (corpus.map (fun p => p.1)) limit 50
  extracted.filterMap (fun m => (dictGet corpus m.1).map (fun ex => (ex, m.2 / 100)))

/-- The ordering property asserted by the spec for `selectCandidates`:
every alias-derived identifier precedes every other identifier. -/
def aliasesFirst (ids alias_ids : List String) : Bool :=
  ids == ids.filter (fun x => alias_ids.contains x) ++
    ids.filter (fun x => !(alias_ids.contains x))

/-- Identity set-iteration order (insertion order). -/
def idEnum : List String → List String := fun s => s

/-- Reversed set-iteration order, another admissible order. -/
def revEnum : List String → List String := fun s => s.reverse

/-- A concrete catalog: two bench exercises. -/
def exA1 : ExerciseRecord :=
  { exerciseId := "A1", name := "Bench Press", equipments := ["barbell"],
    targetMuscles := ["chest"], bodyParts := ["chest"], gifUrl := "a1.gif" }

/-- A concrete catalog record whose name is fuzzily close to `exA1`. -/
def exB2 : ExerciseRecord :=
  { exerciseId := "B2", name := "Bench", equipments := ["bench"],
    targetMuscles := ["chest"], bodyParts := ["chest"], gifUrl := "b2.gif" }

/-- A small concrete catalog. -/
def exs1 : List ExerciseRecord := [exA1, exB2]

/-- A concrete alias index for `exs1`. -/
def aliasIdx1 : List (String × List String) := [("bench press", ["A1"])]

/-- A concrete squat catalog for the truncation scenarios. -/
def exs8 : List ExerciseRecord :=
  [ { exerciseId := "S1", name := "Back Squat", equipments := [],
      targetMuscles := [], bodyParts := [], gifUrl := "" },
    { exerciseId := "S2", name := "Goblet Squat", equipments := [],
      targetMuscles := [], bodyParts := [], gifUrl := "" },
    { exerciseId := "S3", name := "Hack Squat", equipments := [],
      targetMuscles := [], bodyParts := [], gifUrl := "" },
    { exerciseId := "F1", name := "Front Squat", equipments := [],
      targetMuscles := [], bodyParts := [], gifUrl := "" } ]

/-- A concrete alias index for `exs8`. -/
def aliasIdx8 : List (String × List String) := [("squat", ["S1", "S2", "S3"])]

/-- A concrete similarity scorer on the rapidfuzz 0..100 scale. -/
def demoScorer (q c : String) : Rat :=
  if q = "bench press" ∧ c = "bench press" then 90
  else if q = "bench press" ∧ c = "bench" then 80
  else if q = "squat" ∧ c = "front squat" then 70
  else 0


/-- A concrete candidate list (the projection of `exA1`). -/
def cands1 : List Candidate :=
  [{ exercise_id := "A1", name := "Bench Press", equipment := "barbell",
     target_muscles := "chest", body_parts := "chest" }]

/-- A concrete oracle answering with a valid identifier. -/
def orcA1 : List Candidate → Except String String :=
  fun _ => Except.ok "A1"

/-- A concrete oracle answering with a quoted null marker. -/
def orcNull : List Candidate → Except String String :=
  fun _ => Except.ok "\"null\""

/-- A concrete oracle raising a timeout exception. -/
def orcErr : List Candidate → Except String String :=
  fun _ => Except.error "Request timed out"

/-- Reduction helper: on a nonempty candidate list and a returned oracle
answer, `resolve_exercise` is the classification of the cleaned answer. -/
theorem resolve_exercise_oracle_ok (exercises : List ExerciseRecord)
    (cands : List Candidate) (oracle : List Candidate → Except String String)
    (exercise_name : String) (raw : String)
    (hne : cands ≠ []) (horacle : oracle cands = Except.ok raw) :
    resolve_exercise exercises (Except.ok cands) oracle exercise_name =
      (if pyLower (pyStrip raw) ∈ (["null", "none", ""] : List String) then
        { success := false
          error := some "LLM could not find a suitable match"
          exercise_id := none
          exercise_name := none
          exercise_details := none
          resolution_method := "llm_no_match"
          confidence_score := 0
          candidates_count := some cands.length
          llm_response := some (pyStrip raw)
          user_input := none }
      else
        match dictGet (exercises_by_id exercises) (clean_llm_id (pyStrip raw)) with
        | none =>
          { success := false
            error := some ("LLM returned invalid exercise_id: " ++
              clean_llm_id (pyStrip raw))
            exercise_id := none
            exercise_name := none
            exercise_details := none
            resolution_method := "llm_invalid"
            confidence_score := 0
            candidates_count := some cands.length
            llm_response := some (pyStrip raw)
            user_input := none }
        | some exercise =>
          { success := true
            error := none
            exercise_id := some (clean_llm_id (pyStrip raw))
            exercise_name := some exercise.name
            exercise_details := some
              { target_muscles := exercise.targetMuscles
                body_parts := exercise.bodyParts
                equipment := exercise.equipments
                gif_url := exercise.gifUrl }
            resolution_method := "llm_match"
            confidence_score := 0.85
            candidates_count := some cands.length
            llm_response := none
            user_input := some exercise_name }) := by
  cases cands with
  | nil => exact absurd rfl hne
  | cons c cs =>
    simp only [resolve_exercise, List.isEmpty_cons, Bool.false_eq_true, if_false,
      horacle]

/-- C2: any exception raised by candidate selection or by the oracle
call is caught by `resolve_exercise` and mapped to a well-formed result
with `resolution_method` "error", `success` false, and the exception's
message carried inside the `error` field (prefixed with "Error resolving
exercise: "); being a total function of the two step outcomes, the
resolver never propagates an exception past its boundary. -/
theorem C2_error_boundary (exercises : List ExerciseRecord)
    (exercise_name msg : String)
    (oracle : List Candidate → Except String String)
    (cands : List Candidate)
    (hne : cands ≠ [])
    (horacle : oracle cands = Except.error msg) :
    (resolve_exercise exercises (Except.error msg) oracle exercise_name =
      { success := false
        error := some ("Error resolving exercise: " ++ msg)
        exercise_id := none
        exercise_name := none
        exercise_details := none
        resolution_method := "error"
        confidence_score := 0
        candidates_count := none
        llm_response := none
        user_input := some exercise_name }) ∧
    (resolve_exercise exercises (Except.ok cands) oracle exercise_name =
      { success := false
        error := some ("Error resolving exercise: " ++ msg)
        exercise_id := none
        exercise_name := none
        exercise_details := none
        resolution_method := "error"
        confidence_score := 0
        candidates_count := none
        llm_response := none
        user_input := some exercise_name }) := by
  refine ⟨rfl, ?_⟩
  cases cands with
  | nil => exact absurd rfl hne
  | cons c cs =>
    simp only [resolve_exercise, List.isEmpty_cons, Bool.false_eq_true, if_false,
      horacle]

/-- Witness for C2: a concrete oracle timeout yields the error result. -/
theorem C2_error_boundary_witness :
    resolve_exercise exs1 (Except.ok cands1) orcErr "bench press" =
      { success := false
        error := some ("Error resolving exercise: " ++ "Request timed out")
        exercise_id := none
        exercise_name := none
        exercise_details := none
        resolution_method := "error"
        confidence_score := 0
        candidates_count := none
        llm_response := none
        user_input := some "bench press" } :=
  (C2_error_boundary exs1 "bench press" "Request timed out" orcErr cands1
    (by decide) rfl).2

/-- C3: when the oracle's cleaned answer is a catalog identifier, the
result has success true, method "llm_match", confidence exactly 0.85,
that identifier as `exercise_id`, and details from the catalog record. -/
theorem C3_llm_match (exercises : List ExerciseRecord)
    (cands : List Candidate) (oracle : List Candidate → Except String String)
    (exercise_name raw : String) (ex : ExerciseRecord)
    (hne : cands ≠ [])
    (horacle : oracle cands = Except.ok raw)
    (hnn : pyLower (pyStrip raw) ∉ (["null", "none", ""] : List String))
    (hfound : dictGet (exercises_by_id exercises) (clean_llm_id (pyStrip raw)) =
      some ex) :
    resolve_exercise exercises (Except.ok cands) oracle exercise_name =
      { success := true
        error := none
        exercise_id := some (clean_llm_id (pyStrip raw))
        exercise_name := some ex.name
        exercise_details := some
          { target_muscles := ex.targetMuscles
            body_parts := ex.bodyParts
            equipment := ex.equipments
            gif_url := ex.gifUrl }
        resolution_method := "llm_match"
        confidence_score := 0.85
        candidates_count := some cands.length
        llm_response := none
        user_input := some exercise_name } := by
  rw [resolve_exercise_oracle_ok exercises cands oracle exercise_name raw hne horacle,
    if_neg hnn, hfound]

/-- Witness for C3: the oracle answers "A1" over the `exs1` catalog. -/
theorem C3_llm_match_witness :
    resolve_exercise exs1 (Except.ok cands1) orcA1 "bench press" =
      { success := true
        error := none
        exercise_id := some "A1"
        exercise_name := some "Bench Press"
        exercise_details := some
          { target_muscles := ["chest"]
            body_parts := ["chest"]
            equipment := ["barbell"]
            gif_url := "a1.gif" }
        resolution_method := "llm_match"
        confidence_score := 0.85
        candidates_count := some 1
        llm_response := none
        user_input := some "bench press" } :=
  C3_llm_match exs1 cands1 orcA1 "bench press" "A1" exA1
    (by decide) rfl (by decide) (by decide)

/-- C4: when candidate selection returns the empty sequence, the result
is the "none" state (success false, confidence 0.0, null id,
candidates_count 0) and the outcome does not depend on the oracle at
all: the oracle is never invoked. -/
theorem C4_empty_selection_none (enum : List String → List String)
    (alias_index : List (String × List String))
    (exercises : List ExerciseRecord) (scorer : String → String → Rat)
    (oracle : List Candidate → Except String String)
    (exercise_name : String) (target_count : Nat)
    (hsel : select_candidates enum alias_index exercises scorer exercise_name
      target_count = []) :
    (resolve_exercise exercises
      (Except.ok (select_candidates enum alias_index exercises scorer
        exercise_name target_count)) oracle exercise_name =
      { success := false
        error := some "No matching exercises found in database"
        exercise_id := none
        exercise_name := none
        exercise_details := none
        resolution_method := "none"
        confidence_score := 0
        candidates_count := some 0
        llm_response := none
        user_input := none }) ∧
    (∀ oracle' : List Candidate → Except String String,
      resolve_exercise exercises
        (Except.ok (select_candidates enum alias_index exercises scorer
          exercise_name target_count)) oracle exercise_name =
      resolve_exercise exercises
        (Except.ok (select_candidates enum alias_index exercises scorer
          exercise_name target_count)) oracle' exercise_name) := by
  rw [hsel]
  exact ⟨rfl, fun _ => rfl⟩

/-- Witness for C4: the nonsense query "" has no alias and no fuzzy
match over `exs1`, so resolution ends in the "none" state. -/
theorem C4_empty_selection_none_witness :
    resolve_exercise exs1
      (Except.ok (select_candidates idEnum aliasIdx1 exs1 demoScorer "" 7))
      orcA1 "" =
      { success := false
        error := some "No matching exercises found in database"
        exercise_id := none
        exercise_name := none
        exercise_details := none
        resolution_method := "none"
        confidence_score := 0
        candidates_count := some 0
        llm_response := none
        user_input := none } :=
  (C4_empty_selection_none idEnum aliasIdx1 exs1 demoScorer orcA1 "" 7
    (by decide)).1

/-- A concrete oracle answering with an upper-case bare null marker. -/
def orcNULL : List Candidate → Except String String :=
  fun _ => Except.ok "NULL"

/-- C5 counterexample: the oracle answer "\"null\"" (a quoted null) is
cleaned to the text "null", yet `resolve_exercise` classifies it as
"llm_invalid", not "llm_no_match": the null/none test runs before quote
stripping, so quoted forms are not recognized as no-match answers. -/
theorem C5_counterexample :
    pyLower (clean_llm_id (pyStrip "\"null\"")) = "null" ∧
    (resolve_exercise exs1 (Except.ok cands1) orcNull
      "bench press").resolution_method = "llm_invalid" ∧
    (resolve_exercise exs1 (Except.ok cands1) orcNull
      "bench press").resolution_method ≠ "llm_no_match" :=
  ⟨by decide, by decide, by decide⟩

/-- C5 amended: `resolve_exercise` strips surrounding whitespace only
and compares the lower-cased text against "null"/"none"/"" to decide
"llm_no_match"; quote stripping happens afterwards and only on the
identifier path, so a quoted null falls through to identifier
validation.  The result is "llm_no_match" exactly when the
whitespace-stripped, lower-cased answer is in that list, and any
identifier the resolver extracts is the quote-and-whitespace-stripped
cleaned text. -/
theorem C5_null_check_precedes_quote_strip (exercises : List ExerciseRecord)
    (cands : List Candidate) (oracle : List Candidate → Except String String)
    (exercise_name raw : String)
    (hne : cands ≠ [])
    (horacle : oracle cands = Except.ok raw) :
    ((resolve_exercise exercises (Except.ok cands) oracle
        exercise_name).resolution_method = "llm_no_match" ↔
      pyLower (pyStrip raw) ∈ (["null", "none", ""] : List String)) ∧
    (pyLower (pyStrip raw) ∈ (["null", "none", ""] : List String) →
      resolve_exercise exercises (Except.ok cands) oracle exercise_name =
        { success := false
          error := some "LLM could not find a suitable match"
          exercise_id := none
          exercise_name := none
          exercise_details := none
          resolution_method := "llm_no_match"
          confidence_score := 0
          candidates_count := some cands.length
          llm_response := some (pyStrip raw)
          user_input := none }) ∧
    (pyLower (pyStrip raw) ∉ (["null", "none", ""] : List String) →
      ∀ id : String,
        (resolve_exercise exercises (Except.ok cands) oracle
          exercise_name).exercise_id = some id →
        id = clean_llm_id (pyStrip raw)) := by
  rw [resolve_exercise_oracle_ok exercises cands oracle exercise_name raw hne
    horacle]
  by_cases hmem : pyLower (pyStrip raw) ∈ (["null", "none", ""] : List String)
  · rw [if_pos hmem]
    exact ⟨⟨fun _ => hmem, fun _ => rfl⟩, fun _ => rfl,
      fun habs => absurd hmem habs⟩
  · rw [if_neg hmem]
    refine ⟨?_, fun habs => absurd habs hmem, ?_⟩
    · cases hd : dictGet (exercises_by_id exercises) (clean_llm_id (pyStrip raw)) with
      | none =>
        exact ⟨fun hcontra => absurd hcontra
          (show ("llm_invalid" : String) ≠ "llm_no_match" by decide),
          fun habs => absurd habs hmem⟩
      | some ex =>
        exact ⟨fun hcontra => absurd hcontra
          (show ("llm_match" : String) ≠ "llm_no_match" by decide),
          fun habs => absurd habs hmem⟩
    · intro _ id hid
      cases hd : dictGet (exercises_by_id exercises) (clean_llm_id (pyStrip raw)) with
      | none =>
        rw [hd] at hid
        exact Option.noConfusion hid
      | some ex =>
        rw [hd] at hid
        exact (Option.some_inj.mp hid).symm

/-- Witness for the amended C5: a bare upper-case "NULL" answer is
classified as "llm_no_match". -/
theorem C5_null_check_precedes_quote_strip_witness :
    (resolve_exercise exs1 (Except.ok cands1) orcNULL
      "bench press").resolution_method = "llm_no_match" :=
  (C5_null_check_precedes_quote_strip exs1 cands1 orcNULL "bench press" "NULL"
    (by decide) rfl).1.mpr (by decide)

/-- C6: an oracle identifier absent from the catalog index yields the
"llm_invalid" result (success false, confidence 0, null id), and in
every reachable result a non-null `exercise_id` exists in the catalog
index. -/
theorem C6_llm_invalid_rejected (exercises : List ExerciseRecord)
    (cands : List Candidate) (oracle : List Candidate → Except String String)
    (exercise_name raw : String)
    (hne : cands ≠ [])
    (horacle : oracle cands = Except.ok raw)
    (hnn : pyLower (pyStrip raw) ∉ (["null", "none", ""] : List String))
    (habsent : dictGet (exercises_by_id exercises) (clean_llm_id (pyStrip raw)) =
      none) :
    (resolve_exercise exercises (Except.ok cands) oracle exercise_name =
      { success := false
        error := some ("LLM returned invalid exercise_id: " ++
          clean_llm_id (pyStrip raw))
        exercise_id := none
        exercise_name := none
        exercise_details := none
        resolution_method := "llm_invalid"
        confidence_score := 0
        candidates_count := some cands.length
        llm_response := some (pyStrip raw)
        user_input := none }) ∧
    (∀ (selection : Except String (List Candidate))
      (oracle' : List Candidate → Except String String) (nm id : String),
      (resolve_exercise exercises selection oracle' nm).exercise_id = some id →
      (dictGet (exercises_by_id exercises) id).isSome = true) := by
  constructor
  · rw [resolve_exercise_oracle_ok exercises cands oracle exercise_name raw hne
      horacle, if_neg hnn, habsent]
  · intro selection oracle' nm id hid
    cases selection with
    | error e => exact Option.noConfusion hid
    | ok cs =>
      cases cs with
      | nil => exact Option.noConfusion hid
      | cons c cs' =>
        cases horc : oracle' (c :: cs') with
        | error e =>
          simp only [resolve_exercise, List.isEmpty_cons, Bool.false_eq_true,
            if_false, horc] at hid
          exact Option.noConfusion hid
        | ok content =>
          rw [resolve_exercise_oracle_ok exercises (c :: cs') oracle' nm content
            (List.cons_ne_nil c cs') horc] at hid
          by_cases hmem : pyLower (pyStrip content) ∈
            (["null", "none", ""] : List String)
          · rw [if_pos hmem] at hid
            exact Option.noConfusion hid
          · rw [if_neg hmem] at hid
            cases hd : dictGet (exercises_by_id exercises)
              (clean_llm_id (pyStrip content)) with
            | none =>
              rw [hd] at hid
              exact Option.noConfusion hid
            | some ex =>
              rw [hd] at hid
              rw [(Option.some_inj.mp hid).symm, hd]
              rfl

/-- Witness for C6: the oracle hallucinates the identifier "ZZ9". -/
theorem C6_llm_invalid_rejected_witness :
    resolve_exercise exs1 (Except.ok cands1) (fun _ => Except.ok "ZZ9")
      "bench press" =
      { success := false
        error := some ("LLM returned invalid exercise_id: " ++
          clean_llm_id (pyStrip "ZZ9"))
        exercise_id := none
        exercise_name := none
        exercise_details := none
        resolution_method := "llm_invalid"
        confidence_score := 0
        candidates_count := some cands1.length
        llm_response := some (pyStrip "ZZ9")
        user_input := none } :=
  (C6_llm_invalid_rejected exs1 cands1 (fun _ => Except.ok "ZZ9") "bench press"
    "ZZ9" (by decide) rfl (by decide) (by decide)).1

/-- C7 counterexample: in the "error" state the resolver's result dict
has no `candidates_count` key at all (modelled as `none`), so not every
result carries that field. -/
theorem C7_counterexample :
    (resolve_exercise exs1 (Except.error "boom") orcA1
      "bench press").resolution_method = "error" ∧
    (resolve_exercise exs1 (Except.error "boom") orcA1
      "bench press").candidates_count = none :=
  ⟨rfl, rfl⟩

/-- C7 amended: the four non-error states carry `candidates_count`
equal to the number of candidates handed to the oracle (0 for "none"),
but the "error" state omits the field entirely (the HTTP response model
later defaults it to 0). -/
theorem C7_candidates_count_by_state (exercises : List ExerciseRecord)
    (exercise_name : String) (oracle : List Candidate → Except String String) :
    (∀ msg : String,
      (resolve_exercise exercises (Except.error msg) oracle
        exercise_name).candidates_count = none) ∧
    ((resolve_exercise exercises (Except.ok []) oracle
      exercise_name).candidates_count = some 0) ∧
    (∀ (cands : List Candidate) (msg : String), cands ≠ [] →
      oracle cands = Except.error msg →
      (resolve_exercise exercises (Except.ok cands) oracle
        exercise_name).candidates_count = none) ∧
    (∀ (cands : List Candidate) (raw : String), cands ≠ [] →
      oracle cands = Except.ok raw →
      (resolve_exercise exercises (Except.ok cands) oracle
        exercise_name).candidates_count = some cands.length) := by
  refine ⟨fun msg => rfl, rfl, ?_, ?_⟩
  · intro cands msg hne horc
    cases cands with
    | nil => exact absurd rfl hne
    | cons c cs =>
      simp only [resolve_exercise, List.isEmpty_cons, Bool.false_eq_true,
        if_false, horc]
  · intro cands raw hne horc
    rw [resolve_exercise_oracle_ok exercises cands oracle exercise_name raw hne
      horc]
    by_cases hmem : pyLower (pyStrip raw) ∈ (["null", "none", ""] : List String)
    · rw [if_pos hmem]
    · rw [if_neg hmem]
      cases hd : dictGet (exercises_by_id exercises)
        (clean_llm_id (pyStrip raw)) with
      | none => rfl
      | some ex => rfl

/-- Witness for the amended C7: an oracle failure after one candidate
was presented still omits the count field. -/
theorem C7_candidates_count_by_state_witness :
    (resolve_exercise exs1 (Except.ok cands1) orcErr
      "bench press").candidates_count = none :=
  (C7_candidates_count_by_state exs1 "bench press" orcErr).2.2.1 cands1
    "Request timed out" (by decide) rfl

/-- `dictGet` on a cons cell. -/
theorem dictGet_cons (q : String × α) (d : List (String × α)) (k : String) :
    dictGet (q :: d) k = if q.1 = k then some q.2 else dictGet d k := by
  by_cases h : q.1 = k <;> simp [dictGet, List.find?_cons, h]

/-- Overwriting every pair keyed `k0` does not change lookups at other
keys. -/
theorem dictGet_map_overwrite (d : List (String × α)) (k0 k : String) (v : α)
    (hne : k0 ≠ k) :
    dictGet (d.map (fun p => if p.1 = k0 then (k0, v) else p)) k =
      dictGet d k := by
  induction d with
  | nil => rfl
  | cons q d ih =>
    by_cases hq : q.1 = k0
    · simp only [List.map_cons, if_pos hq, dictGet_cons, ih]
      rw [if_neg hne, if_neg (by rw [hq]; exact hne)]
    · simp only [List.map_cons, if_neg hq, dictGet_cons, ih]

/-- `dictGet` after a dict write: the written key now returns the new
value, all other keys are unchanged. -/
theorem dictGet_dictInsert (d : List (String × α)) (k0 k : String) (v : α) :
    dictGet (dictInsert d k0 v) k = if k0 = k then some v else dictGet d k := by
  induction d with
  | nil => by_cases h : k0 = k <;> simp [dictInsert, dictGet, h]
  | cons p d ih =>
    by_cases hp : p.1 = k0
    · have hany : ((p :: d).any (fun q => q.1 = k0)) = true := by
        simp [List.any_cons, hp]
      unfold dictInsert
      rw [if_pos hany]
      by_cases hk : k0 = k
      · subst hk
        simp [List.map_cons, hp, dictGet_cons]
      · simp only [List.map_cons, if_pos hp, dictGet_cons]
        simp [hk, hp, dictGet_map_overwrite d k0 k v hk]
    · unfold dictInsert at ih ⊢
      by_cases hd : (d.any (fun q => q.1 = k0)) = true
      · have hany : ((p :: d).any (fun q => q.1 = k0)) = true := by
          simp [List.any_cons, hd]
        rw [if_pos hany]
        rw [if_pos hd] at ih
        simp only [List.map_cons, if_neg hp, dictGet_cons, ih]
        by_cases hpk : p.1 = k
        · have hk : ¬k0 = k := fun h => hp (by rw [hpk, h])
          simp [hpk, hk]
        · simp [hpk]
      · have hany : ((p :: d).any (fun q => q.1 = k0)) = false := by
          simp [List.any_cons, hp, hd]
        rw [hany]
        rw [if_neg hd] at ih
        simp only [Bool.false_eq_true, if_false, List.cons_append, dictGet_cons,
          ih]
        by_cases hpk : p.1 = k
        · have hk : ¬k0 = k := fun h => hp (by rw [hpk, h])
          simp [hpk, hk]
        · simp [hpk]

/-- Folding dict writes over a pair list: the result of a lookup is the
last written value for that key, else whatever the accumulator held. -/
theorem dictGet_foldl_insert (k : String) (l : List (String × α)) :
    ∀ d : List (String × α),
      dictGet (l.foldl (fun acc p => dictInsert acc p.1 p.2) d) k =
        match lastVal l k with
        | some v => some v
        | none => dictGet d k := by
  induction l with
  | nil => intro d; rfl
  | cons p l ih =>
    intro d
    rw [List.foldl_cons, ih (dictInsert d p.1 p.2)]
    cases hlv : lastVal l k with
    | some v => simp [lastVal, hlv]
    | none =>
      simp only [lastVal, hlv, dictGet_dictInsert]
      by_cases hpk : p.1 = k <;> simp [hpk]

/-- A dict comprehension looks up to the value of the last pair with
the queried key. -/
theorem dictGet_dictOfList (l : List (String × α)) (k : String) :
    dictGet (dictOfList l) k = lastVal l k := by
  rw [dictOfList, dictGet_foldl_insert k l []]
  cases lastVal l k <;> rfl

/-- `lastVal` over an append prefers the right-hand part. -/
theorem lastVal_append (a b : List (String × α)) (k : String) :
    lastVal (a ++ b) k =
      match lastVal b k with
      | some v => some v
      | none => lastVal a k := by
  induction a with
  | nil =>
    rw [List.nil_append]
    cases lastVal b k <;> rfl
  | cons p a ih =>
    show (match lastVal (a ++ b) k with
      | some v => some v
      | none => if p.1 = k then some p.2 else none) =
      match lastVal b k with
      | some v => some v
      | none =>
        match lastVal a k with
        | some v => some v
        | none => if p.1 = k then some p.2 else none
    rw [ih]
    cases hb : lastVal b k with
    | some v => rfl
    | none =>
      cases ha : lastVal a k with
      | some w => rfl
      | none => rfl

/-- If no pair of `l` carries key `k`, `lastVal` is `none`. -/
theorem lastVal_eq_none (l : List (String × α)) (k : String)
    (h : ∀ p ∈ l, p.1 ≠ k) : lastVal l k = none := by
  induction l with
  | nil => rfl
  | cons p l ih =>
    simp only [lastVal, ih (fun q hq => h q (List.mem_cons_of_mem p hq))]
    rw [if_neg (h p (List.mem_cons_self p l))]

/-- A `lastVal` hit over a mapped pair list comes from a source
element with the queried key. -/
theorem lastVal_map_eq_some (f : β → String) (g : β → α) (l : List β)
    (k : String) (v : α)
    (h : lastVal (l.map (fun x => (f x, g x))) k = some v) :
    ∃ x ∈ l, f x = k ∧ g x = v := by
  induction l with
  | nil => exact Option.noConfusion h
  | cons y l ih =>
    simp only [List.map_cons, lastVal] at h
    cases hlv : lastVal (l.map (fun x => (f x, g x))) k with
    | some w =>
      rw [hlv] at h
      have hwv : w = v := Option.some_inj.mp h
      obtain ⟨x, hx, hfx, hgx⟩ := ih (by rw [hlv, hwv])
      exact ⟨x, List.mem_cons_of_mem y hx, hfx, hgx⟩
    | none =>
      rw [hlv] at h
      by_cases hy : f y = k
      · rw [if_pos hy] at h
        exact ⟨y, List.mem_cons_self y l, hy, Option.some_inj.mp h⟩
      · rw [if_neg hy] at h
        exact Option.noConfusion h

/-- A hit in `exercises_by_id` returns a catalog record whose
identifier is the queried key. -/
theorem dictGet_exercises_by_id_eq (exercises : List ExerciseRecord)
    (k : String) (ex : ExerciseRecord)
    (h : dictGet (exercises_by_id exercises) k = some ex) :
    ex.exerciseId = k ∧ ex ∈ exercises := by
  rw [exercises_by_id, dictGet_dictOfList] at h
  obtain ⟨x, hx, hfx, hgx⟩ := lastVal_map_eq_some
    (fun ex => ex.exerciseId) (fun ex => ex) exercises k ex h
  rw [← hgx]
  exact ⟨hfx, hx⟩

/-- C9 counterexample: the request model accepts an empty query string
(only `candidate_count` is bounded), so the empty query is not rejected
with a validation error: it flows through candidate selection and comes
back as the ordinary "none" business outcome. -/
theorem C9_counterexample :
    resolve_exercise_route idEnum aliasIdx1 exs1 demoScorer orcA1 "" 7 =
      Except.ok
        { success := false
          error := some "No matching exercises found in database"
          exercise_id := none
          exercise_name := none
          exercise_details := none
          resolution_method := "none"
          confidence_score := 0
          candidates_count := some 0
          llm_response := none
          user_input := none } := by
  rfl

/-- C9 amended: a `candidate_count` outside [3,15] is rejected by the
request model before candidate selection runs (for every query and
oracle), but an empty query string passes validation and is handed to
candidate selection like any other query. -/
theorem C9_validation_bounds_only_count (enum : List String → List String)
    (alias_index : List (String × List String))
    (exercises : List ExerciseRecord) (scorer : String → String → Rat)
    (oracle : List Candidate → Except String String)
    (exercise_name : String) (candidate_count : Nat) :
    (¬(3 ≤ candidate_count ∧ candidate_count ≤ 15) →
      resolve_exercise_route enum alias_index exercises scorer oracle
        exercise_name candidate_count =
        Except.error "validation error: candidate_count outside [3,15]") ∧
    ((3 ≤ candidate_count ∧ candidate_count ≤ 15) →
      resolve_exercise_route enum alias_index exercises scorer oracle
        "" candidate_count =
        Except.ok (resolve_exercise exercises
          (Except.ok (select_candidates enum alias_index exercises scorer ""
            candidate_count))
          oracle "")) := by
  constructor
  · intro h
    unfold resolve_exercise_route
    rw [if_neg h]
  · intro h
    unfold resolve_exercise_route
    rw [if_pos h]

/-- Witness for the amended C9: `candidate_count = 20` is rejected. -/
theorem C9_validation_bounds_only_count_witness :
    resolve_exercise_route idEnum aliasIdx1 exs1 demoScorer orcA1
      "bench press" 20 =
      Except.error "validation error: candidate_count outside [3,15]" :=
  (C9_validation_bounds_only_count idEnum aliasIdx1 exs1 demoScorer orcA1
    "bench press" 20).1 (by decide)

/-- Adding to a set never shrinks it. -/
theorem length_le_setAdd (s : List String) (x : String) :
    s.length ≤ (setAdd s x).length := by
  unfold setAdd
  by_cases h : x ∈ s
  · rw [if_pos h]
  · rw [if_neg h, List.length_append]
    exact Nat.le_add_right s.length 1

/-- Adding to a set grows it by at most one element. -/
theorem setAdd_length_le (s : List String) (x : String) :
    (setAdd s x).length ≤ s.length + 1 := by
  unfold setAdd
  by_cases h : x ∈ s
  · rw [if_pos h]
    exact Nat.le_succ s.length
  · rw [if_neg h, List.length_append]
    exact Nat.le_refl (s.length + 1)

/-- C8 counterexample: with the alias set already at `target_count`
(here 3 squat aliases, target 3) the fuzzy matcher still contributes:
the loop adds the first fuzzy identifier "F1" before checking the size,
and under an admissible set order the truncated result contains "F1",
a fuzzy-only identifier. -/
theorem C8_counterexample :
    permEnum revEnum ∧
    3 ≤ (setUpdate [] (get_candidates_from_aliases aliasIdx8 "squat")).length ∧
    "F1" ∉ get_candidates_from_aliases aliasIdx8 "squat" ∧
    "F1" ∈ (get_candidates_from_fuzzy exs8 demoScorer "squat" (3 * 2) 50).map
      (fun p => p.1) ∧
    "F1" ∈ (select_candidates revEnum aliasIdx8 exs8 demoScorer "squat" 3).map
      (fun c => c.exercise_id) :=
  ⟨fun s => List.reverse_perm s, by decide, by decide, by decide, by decide⟩

/-- C8 amended: the fuzzy loop runs unconditionally; when the alias set
already holds at least `target_count` members it still adds the first
fuzzy identifier (the size check follows the add), while from below
`target_count` the set never grows past `target_count`; the final
candidate list is always truncated to at most `target_count`. -/
theorem C8_fuzzy_fill_behaviour (target_count : Nat) :
    (∀ (s : List String) (m : String × Rat) (fuzzy : List (String × Rat)),
      target_count ≤ s.length →
      addFuzzy target_count s (m :: fuzzy) = setAdd s m.1) ∧
    (∀ (s : List String) (fuzzy : List (String × Rat)),
      s.length < target_count →
      (addFuzzy target_count s fuzzy).length ≤ target_count) ∧
    (∀ (enum : List String → List String)
      (alias_index : List (String × List String))
      (exercises : List ExerciseRecord) (scorer : String → String → Rat)
      (exercise_name : String),
      (select_candidates enum alias_index exercises scorer exercise_name
        target_count).length ≤ target_count) := by
  refine ⟨?_, ?_, ?_⟩
  · intro s m fuzzy hfull
    unfold addFuzzy
    rw [if_pos (Nat.le_trans hfull (length_le_setAdd s m.1))]
  · intro s fuzzy
    induction fuzzy generalizing s with
    | nil =>
      intro h
      exact Nat.le_of_lt h
    | cons m rest ih =>
      intro h
      unfold addFuzzy
      by_cases hstop : target_count ≤ (setAdd s m.1).length
      · rw [if_pos hstop]
        exact Nat.le_trans (setAdd_length_le s m.1) h
      · rw [if_neg hstop]
        exact ih (setAdd s m.1) (Nat.lt_of_not_le hstop)
  · intro enum alias_index exercises scorer exercise_name
    unfold select_candidates
    refine Nat.le_trans (List.length_filterMap_le _ _) ?_
    rw [List.length_take]
    exact Nat.min_le_left _ _

/-- Witness for the amended C8: with the set already full at 3 members,
one fuzzy pair is still added. -/
theorem C8_fuzzy_fill_behaviour_witness :
    addFuzzy 3 ["S1", "S2", "S3"] [("F1", 70)] = ["S1", "S2", "S3", "F1"] := by
  rw [(C8_fuzzy_fill_behaviour 3).1 ["S1", "S2", "S3"] ("F1", 70) []
    (by decide)]
  decide

/-- Membership in the catalog projection stage of `_select_candidates`:
an identifier survives exactly when it is in the id list and present in
the catalog index. -/
theorem mem_project_ids (exercises : List ExerciseRecord) (ids : List String)
    (id : String) :
    (id ∈ (ids.filterMap (fun ex_id =>
      (dictGet (exercises_by_id exercises) ex_id).map (fun exercise =>
        ({ exercise_id := exercise.exerciseId
           name := exercise.name
           equipment := String.intercalate ", " exercise.equipments
           target_muscles := String.intercalate ", " exercise.targetMuscles
           body_parts := String.intercalate ", " exercise.bodyParts } :
          Candidate)))).map (fun c => c.exercise_id)) ↔
      (id ∈ ids ∧ (dictGet (exercises_by_id exercises) id).isSome = true) := by
  constructor
  · intro hmem
    rw [List.mem_map] at hmem
    obtain ⟨c, hc, hcid⟩ := hmem
    rw [List.mem_filterMap] at hc
    obtain ⟨a, ha, hfa⟩ := hc
    cases hda : dictGet (exercises_by_id exercises) a with
    | none =>
      rw [hda] at hfa
      exact Option.noConfusion hfa
    | some ex =>
      rw [hda] at hfa
      have hcex := Option.some_inj.mp hfa
      have hkey := (dictGet_exercises_by_id_eq exercises a ex hda).1
      have hcid' : c.exercise_id = ex.exerciseId := by rw [← hcex]
      have haid : a = id := by rw [← hcid, hcid', hkey]
      subst haid
      exact ⟨ha, by rw [hda]; rfl⟩
  · rintro ⟨hin, hsome⟩
    obtain ⟨ex, hex⟩ := Option.isSome_iff_exists.mp hsome
    rw [List.mem_map]
    refine ⟨{ exercise_id := ex.exerciseId
              name := ex.name
              equipment := String.intercalate ", " ex.equipments
              target_muscles := String.intercalate ", " ex.targetMuscles
              body_parts := String.intercalate ", " ex.bodyParts }, ?_, ?_⟩
    · rw [List.mem_filterMap]
      exact ⟨id, hin, by rw [hex]; rfl⟩
    · exact (dictGet_exercises_by_id_eq exercises id ex hex).1

/-- C1 counterexample: the candidate set is a Python `set`, whose
iteration order is unspecified.  Under the admissible reversed order,
the query "bench press" (an alias key mapping to ["A1"]) yields the
candidate sequence [B2, A1]: the fuzzy-only identifier B2 precedes the
aliased identifier A1, so alias matches do not come first. -/
theorem C1_counterexample :
    permEnum revEnum ∧
    dictGet aliasIdx1 (normalize_name "bench press") = some ["A1"] ∧
    get_candidates_from_aliases aliasIdx1 "bench press" = ["A1"] ∧
    ("B2" ∉ get_candidates_from_aliases aliasIdx1 "bench press") ∧
    ("B2" ∈ (get_candidates_from_fuzzy exs1 demoScorer "bench press" (7 * 2)
      50).map (fun p => p.1)) ∧
    (select_candidates revEnum aliasIdx1 exs1 demoScorer "bench press" 7).map
      (fun c => c.exercise_id) = ["B2", "A1"] ∧
    aliasesFirst ((select_candidates revEnum aliasIdx1 exs1 demoScorer
      "bench press" 7).map (fun c => c.exercise_id))
      (get_candidates_from_aliases aliasIdx1 "bench press") = false :=
  ⟨fun s => List.reverse_perm s, by decide, by decide, by decide, by decide,
    by decide, by decide⟩

/-- C1 amended: for every admissible set-iteration order, the returned
candidates' identifier set is exactly the alias identifiers together
with the fuzzy identifiers accumulated in descending-score order until
the set reaches `target_count`, filtered to catalog-present ids (here
stated whenever the accumulated set fits in `target_count`, e.g. when
the alias set is below it); the sequence order itself carries no
alias-before-fuzzy guarantee. -/
theorem C1_candidate_set_membership (enum : List String → List String)
    (hperm : permEnum enum)
    (alias_index : List (String × List String))
    (exercises : List ExerciseRecord) (scorer : String → String → Rat)
    (exercise_name : String) (target_count : Nat)
    (hlen : (addFuzzy target_count
      (setUpdate [] (get_candidates_from_aliases alias_index exercise_name))
      (get_candidates_from_fuzzy exercises scorer exercise_name
        (target_count * 2) 50)).length ≤ target_count)
    (id : String) :
    (id ∈ (select_candidates enum alias_index exercises scorer exercise_name
      target_count).map (fun c => c.exercise_id)) ↔
      (id ∈ addFuzzy target_count
        (setUpdate [] (get_candidates_from_aliases alias_index exercise_name))
        (get_candidates_from_fuzzy exercises scorer exercise_name
          (target_count * 2) 50) ∧
       (dictGet (exercises_by_id exercises) id).isSome = true) := by
  have hp := hperm (addFuzzy target_count
    (setUpdate [] (get_candidates_from_aliases alias_index exercise_name))
    (get_candidates_from_fuzzy exercises scorer exercise_name
      (target_count * 2) 50))
  have htake : (enum (addFuzzy target_count
      (setUpdate [] (get_candidates_from_aliases alias_index exercise_name))
      (get_candidates_from_fuzzy exercises scorer exercise_name
        (target_count * 2) 50))).take target_count =
      enum (addFuzzy target_count
        (setUpdate [] (get_candidates_from_aliases alias_index exercise_name))
        (get_candidates_from_fuzzy exercises scorer exercise_name
          (target_count * 2) 50)) :=
    List.take_of_length_le (by rw [hp.length_eq]; exact hlen)
  simp only [select_candidates]
  rw [htake, mem_project_ids, hp.mem_iff]

/-- Witness for the amended C1: "A1" is a returned candidate id for the
query "bench press" under the insertion enumeration order. -/
theorem C1_candidate_set_membership_witness :
    "A1" ∈ (select_candidates idEnum aliasIdx1 exs1 demoScorer "bench press"
      7).map (fun c => c.exercise_id) :=
  (C1_candidate_set_membership idEnum (fun s => List.Perm.refl s) aliasIdx1
    exs1 demoScorer "bench press" 7 (by decide) "A1").mpr
    ⟨by decide, by decide⟩

/-- In a corpus built over `A ++ ej :: l₃` with keys the lower-cased
names, the value stored under `ej`'s key comes from `ej` or a later
record: the prefix `A` can never supply it. -/
theorem corpus_lookup_from_tail (g : ExerciseRecord → α)
    (A l₃ : List ExerciseRecord) (ej : ExerciseRecord) (k0 : String)
    (hj : pyLower ej.name = k0) :
    ∃ x, x ∈ ej :: l₃ ∧
      lastVal ((A ++ ej :: l₃).map (fun ex => (pyLower ex.name, g ex))) k0 =
        some (g x) := by
  have hb : ∃ x, x ∈ ej :: l₃ ∧
      lastVal ((ej :: l₃).map (fun ex => (pyLower ex.name, g ex))) k0 =
        some (g x) := by
    cases hlv : lastVal (l₃.map (fun ex => (pyLower ex.name, g ex))) k0 with
    | some w =>
      obtain ⟨x, hx, hfx, hgx⟩ := lastVal_map_eq_some
        (fun ex => pyLower ex.name) g l₃ k0 w hlv
      refine ⟨x, List.mem_cons_of_mem ej hx, ?_⟩
      simp only [List.map_cons, lastVal, hlv, hgx]
    | none =>
      refine ⟨ej, List.mem_cons_self ej l₃, ?_⟩
      simp only [List.map_cons, lastVal, hlv, if_pos hj]
  obtain ⟨x, hx, hbv⟩ := hb
  refine ⟨x, hx, ?_⟩
  rw [List.map_append, lastVal_append, hbv]

/-- C10: two catalog records with equal lower-cased display names make
the earlier record unreachable through approximate matching: the fuzzy
corpus and the search route corpus are dicts keyed by lower-cased name,
so the later record overwrites the earlier one; the earlier record's
identifier never appears among fuzzy candidates nor among search
results, while lookup by identifier still returns it. -/
theorem C10_duplicate_lowercase_names_shadow
    (l₁ l₂ l₃ : List ExerciseRecord) (ei ej : ExerciseRecord)
    (exercises : List ExerciseRecord)
    (hsplit : exercises = l₁ ++ ei :: l₂ ++ ej :: l₃)
    (hname : pyLower ei.name = pyLower ej.name)
    (hnd : (exercises.map (fun ex => ex.exerciseId)).Nodup)
    (scorer : String → String → Rat) (q : String) (lim : Nat)
    (cutoff : Rat) (limS : Nat) :
    (ei.exerciseId ∉ (get_candidates_from_fuzzy exercises scorer q lim
      cutoff).map (fun p => p.1)) ∧
    (∀ p ∈ search_exercises exercises scorer q limS,
      p.1.exerciseId ≠ ei.exerciseId) ∧
    dictGet (exercises_by_id exercises) ei.exerciseId = some ei := by
  subst hsplit
  have hei_mem : ei ∈ l₁ ++ ei :: l₂ ++ ej :: l₃ :=
    List.mem_append_left (ej :: l₃)
      (List.mem_append_right l₁ (List.mem_cons_self ei l₂))
  have hmap : ((l₁ ++ ei :: l₂ ++ ej :: l₃).map (fun ex => ex.exerciseId)) =
      l₁.map (fun ex => ex.exerciseId) ++ (ei.exerciseId ::
        (l₂.map (fun ex => ex.exerciseId) ++ ej.exerciseId ::
          l₃.map (fun ex => ex.exerciseId))) := by
    simp only [List.map_append, List.map_cons, List.append_assoc,
      List.cons_append]
  have hnd' := hnd
  rw [hmap] at hnd'
  have hnd2 : (ei.exerciseId :: (l₂.map (fun ex => ex.exerciseId) ++
      ej.exerciseId :: l₃.map (fun ex => ex.exerciseId))).Nodup :=
    List.Nodup.sublist (List.sublist_append_right _ _) hnd'
  have hnotin : ei.exerciseId ∉ l₂.map (fun ex => ex.exerciseId) ++
      ej.exerciseId :: l₃.map (fun ex => ex.exerciseId) :=
    (List.nodup_cons.mp hnd2).1
  have hsub : ei.exerciseId ∉ ej.exerciseId :: l₃.map (fun ex => ex.exerciseId) :=
    fun h => hnotin (List.mem_append_right _ h)
  have hsubmap : ei.exerciseId ∉ (ej :: l₃).map (fun ex => ex.exerciseId) := by
    rw [List.map_cons]
    exact hsub
  have hndinj : ∀ x ∈ l₁ ++ ei :: l₂ ++ ej :: l₃,
      x.exerciseId = ei.exerciseId → x = ei :=
    fun x hx hxe => List.inj_on_of_nodup_map hnd hx hei_mem hxe
  refine ⟨?_, ?_, ?_⟩
  · intro hmem
    rw [List.mem_map] at hmem
    obtain ⟨p, hp, hpid⟩ := hmem
    simp only [get_candidates_from_fuzzy] at hp
    rw [List.mem_filterMap] at hp
    obtain ⟨m, hm, hfm⟩ := hp
    cases hdg : dictGet (search_corpus (l₁ ++ ei :: l₂ ++ ej :: l₃)) m.1 with
    | none =>
      rw [hdg] at hfm
      exact Option.noConfusion hfm
    | some idv =>
      rw [hdg] at hfm
      have hpv := Option.some_inj.mp hfm
      have hidv : idv = ei.exerciseId := by rw [← hpid, ← hpv]
      rw [hidv] at hdg
      rw [search_corpus, dictGet_dictOfList] at hdg
      obtain ⟨x, hx, hfx, hgx⟩ := lastVal_map_eq_some
        (fun ex => pyLower ex.name) (fun ex => ex.exerciseId)
        (l₁ ++ ei :: l₂ ++ ej :: l₃) m.1 ei.exerciseId hdg
      have hxei : x = ei := hndinj x hx hgx
      rw [hxei] at hfx
      obtain ⟨y, hy, hby⟩ := corpus_lookup_from_tail
        (fun ex => ex.exerciseId) (l₁ ++ ei :: l₂) l₃ ej m.1
        (by rw [← hname]; exact hfx)
      rw [hby] at hdg
      have hyid : y.exerciseId = ei.exerciseId := Option.some_inj.mp hdg
      exact hsubmap (hyid ▸ List.mem_map_of_mem (fun ex => ex.exerciseId) hy)
  · intro p hp heq
    simp only [search_exercises] at hp
    rw [List.mem_filterMap] at hp
    obtain ⟨m, hm, hfm⟩ := hp
    cases hdg : dictGet (dictOfList ((l₁ ++ ei :: l₂ ++ ej :: l₃).map
        (fun ex => (pyLower ex.name, ex)))) m.1 with
    | none =>
      rw [hdg] at hfm
      exact Option.noConfusion hfm
    | some exr =>
      rw [hdg] at hfm
      have hpv := Option.some_inj.mp hfm
      have hexr : exr = p.1 := by rw [← hpv]
      rw [dictGet_dictOfList] at hdg
      obtain ⟨x, hx, hfx, hgx⟩ := lastVal_map_eq_some
        (fun ex => pyLower ex.name) (fun ex => ex)
        (l₁ ++ ei :: l₂ ++ ej :: l₃) m.1 exr hdg
      have hxei : x = ei := by
        apply hndinj x hx
        rw [hgx, hexr, heq]
      rw [hxei] at hfx
      obtain ⟨y, hy, hby⟩ := corpus_lookup_from_tail
        (fun ex => ex) (l₁ ++ ei :: l₂) l₃ ej m.1
        (by rw [← hname]; exact hfx)
      rw [hby] at hdg
      have hyexr : y = exr := Option.some_inj.mp hdg
      have hyid : y.exerciseId = ei.exerciseId := by rw [hyexr, hexr, heq]
      exact hsubmap (hyid ▸ List.mem_map_of_mem (fun ex => ex.exerciseId) hy)
  · rw [exercises_by_id, dictGet_dictOfList]
    have hmp : ((l₁ ++ ei :: l₂ ++ ej :: l₃).map
        (fun ex => (ex.exerciseId, ex))) =
        l₁.map (fun ex => (ex.exerciseId, ex)) ++ ((ei.exerciseId, ei) ::
          (l₂ ++ ej :: l₃).map (fun ex => (ex.exerciseId, ex))) := by
      simp only [List.map_append, List.map_cons, List.append_assoc,
        List.cons_append]
    rw [hmp, lastVal_append]
    have hnotin' : ei.exerciseId ∉ (l₂ ++ ej :: l₃).map
        (fun ex => ex.exerciseId) := by
      rw [List.map_append, List.map_cons]
      exact hnotin
    have hnone : lastVal ((l₂ ++ ej :: l₃).map (fun ex => (ex.exerciseId, ex)))
        ei.exerciseId = none := by
      apply lastVal_eq_none
      intro qp hqp
      rw [List.mem_map] at hqp
      obtain ⟨x, hx, hxq⟩ := hqp
      rw [← hxq]
      intro hxe
      exact hnotin' (hxe ▸ List.mem_map_of_mem (fun ex => ex.exerciseId) hx)
    have hnone' := hnone
    rw [List.map_append, List.map_cons] at hnone'
    simp [lastVal, hnone']

/-- A record whose display name collides after lower-casing. -/
def exDup1 : ExerciseRecord :=
  { exerciseId := "D1", name := "Push Up", equipments := [],
    targetMuscles := [], bodyParts := [], gifUrl := "" }

/-- A later record with the same lower-cased display name. -/
def exDup2 : ExerciseRecord :=
  { exerciseId := "D2", name := "push up", equipments := [],
    targetMuscles := [], bodyParts := [], gifUrl := "" }

/-- A catalog with a lower-cased duplicate display name. -/
def exs10 : List ExerciseRecord := [exDup1, exDup2]

/-- Witness for C10: "D1" (the earlier duplicate) never surfaces from
fuzzy matching, yet is still reachable by identifier lookup. -/
theorem C10_duplicate_lowercase_names_shadow_witness :
    ("D1" ∉ (get_candidates_from_fuzzy exs10 demoScorer "push up" 10 60).map
      (fun p => p.1)) ∧
    dictGet (exercises_by_id exs10) "D1" = some exDup1 := by
  have h := C10_duplicate_lowercase_names_shadow [] [] [] exDup1 exDup2 exs10
    rfl (by decide) (by decide) demoScorer "push up" 10 60 10
  exact ⟨h.1, h.2.2⟩
